import Mathlib

/-!
Verification development for the persistent enhanced creature index of the
foundry-mcp-bridge module (class PersistentCreatureIndex and the query entry
points of FoundryDataAccess in the compendium data-access source file).

The TypeScript source is shallowly embedded: JavaScript numbers carrying
challenge ratings are modelled as rationals, PF2e levels as integers, thrown
exceptions as Except, the build-state flag and the persisted file as an
explicit state record, and calls into the host platform (pack enumeration,
document loading, file upload) as boolean outcome fields of the environment.
-/

/-! ## String helpers mirroring the JavaScript string operations used -/

/-- Lowercase one character, as String.prototype.toLowerCase acts on ASCII. -/
def asciiLower (c : Char) : Char :=
  if 'A' ≤ c ∧ c ≤ 'Z' then Char.ofNat (c.toNat + 32) else c

/-- Uppercase one character, as String.prototype.toUpperCase acts on ASCII. -/
def asciiUpper (c : Char) : Char :=
  if 'a' ≤ c ∧ c ≤ 'z' then Char.ofNat (c.toNat - 32) else c

/-- Model of query.toLowerCase() for the ASCII strings the module handles. -/
def toLowerCase (s : String) : String := ⟨s.data.map asciiLower⟩

/-- Model of alignment.toUpperCase() for the ASCII strings the module handles. -/
def toUpperCase (s : String) : String := ⟨s.data.map asciiUpper⟩

/-- Whitespace test used by the trim model. -/
def isWsChar (c : Char) : Bool := c = ' ' ∨ c = '\t' ∨ c = '\n' ∨ c = '\r'

/-- Model of String.prototype.trim: drop leading and trailing whitespace. -/
def jsTrim (s : String) : String :=
  ⟨((s.data.dropWhile isWsChar).reverse.dropWhile isWsChar).reverse⟩

/-- Split a character list at every space character, as split(" ") does;
the pieces may be empty when spaces are adjacent. -/
def splitAtSpaces : List Char → List (List Char)
  | [] => [[]]
  | c :: cs =>
    let rest := splitAtSpaces cs
    if c = ' ' then [] :: rest
    else
      match rest with
      | [] => [[c]]
      | t :: ts => (c :: t) :: ts

/-- Model of query.split(" ") returning strings. -/
def splitOnSpace (s : String) : List String :=
  (splitAtSpaces s.data).map (fun cs => ⟨cs⟩)

/-- Strict name order used by the query-result sort comparator: the
lexicographic order on the character sequences, modelling the ordering
name.localeCompare(other) induces on the ASCII names at hand. -/
def localeLt (a b : String) : Bool := decide (a.data < b.data)

/-! ## btoa and the pack checksum -/

/-- The base64 alphabet. -/
def b64Table : List Char :=
  "ABCDEFGHIJKLMNOPQRSTUVWXYZabcdefghijklmnopqrstuvwxyz0123456789+/".data

/-- Character for one 6-bit group. -/
def b64Char (n : Nat) : Char := b64Table.getD n 'A'

/-- Base64-encode a byte list, three bytes at a time, with = padding. -/
def b64Encode : List Nat → List Char
  | [] => []
  | [b0] =>
    let n := b0 * 65536
    [b64Char (n / 262144 % 64), b64Char (n / 4096 % 64), '=', '=']
  | [b0, b1] =>
    let n := b0 * 65536 + b1 * 256
    [b64Char (n / 262144 % 64), b64Char (n / 4096 % 64), b64Char (n / 64 % 64), '=']
  | b0 :: b1 :: b2 :: rest =>
    let n := b0 * 65536 + b1 * 256 + b2
    b64Char (n / 262144 % 64) :: b64Char (n / 4096 % 64) ::
      b64Char (n / 64 % 64) :: b64Char (n % 64) :: b64Encode rest

/-- Model of window.btoa: base64 of the Latin-1 byte view of the string
(the strings fed to it here, pack ids and labels, are ASCII). -/
def btoa (s : String) : String := ⟨b64Encode (s.data.map (fun c => c.toNat % 256))⟩

/-! ## Data model (interfaces DnD5eCreatureIndex, PF2eCreatureIndex,
PackFingerprint, PersistentIndexMetadata, PersistentEnhancedIndex) -/

/-- interface DnD5eCreatureIndex (dialect A profile). -/
structure DnD5eCreatureIndex where
  id : String
  name : String
  type : String
  pack : String
  packLabel : String
  challengeRating : Rat
  creatureType : String
  size : String
  hitPoints : Rat
  armorClass : Rat
  hasSpells : Bool
  hasLegendaryActions : Bool
  alignment : String
  description : String
  img : Option String
deriving DecidableEq

/-- interface PF2eCreatureIndex (dialect B profile). -/
structure PF2eCreatureIndex where
  id : String
  name : String
  type : String
  pack : String
  packLabel : String
  level : Int
  traits : List String
  creatureType : String
  rarity : String
  size : String
  hitPoints : Rat
  armorClass : Rat
  hasSpells : Bool
  alignment : String
  description : String
  img : Option String
deriving DecidableEq

/-- type EnhancedCreatureIndex = DnD5eCreatureIndex | PF2eCreatureIndex.
The source discriminates the union with the test ('level' in creature). -/
inductive EnhancedCreatureIndex where
  | dnd5e (c : DnD5eCreatureIndex)
  | pf2e (c : PF2eCreatureIndex)
deriving DecidableEq

/-- Power metric read by the sort comparator: challengeRating in dialect A,
level in dialect B (the comparator subtracts the two as numbers). -/
def powerOf : EnhancedCreatureIndex → Rat
  | .dnd5e c => c.challengeRating
  | .pf2e c => (c.level : Rat)

/-- Name read by the sort comparator. -/
def nameOf : EnhancedCreatureIndex → String
  | .dnd5e c => c.name
  | .pf2e c => c.name

/-- Profile id accessor across the union. -/
def idOf : EnhancedCreatureIndex → String
  | .dnd5e c => c.id
  | .pf2e c => c.id

/-- interface PackFingerprint. -/
structure PackFingerprint where
  packId : String
  packLabel : String
  lastModified : Int
  documentCount : Nat
  checksum : String
deriving DecidableEq

/-- interface PersistentIndexMetadata; the Map of fingerprints is modelled
as an association list in insertion order, as Map iteration yields it. -/
structure PersistentIndexMetadata where
  version : String
  timestamp : Int
  packFingerprints : List (String × PackFingerprint)
  totalCreatures : Nat
  gameSystem : String
deriving DecidableEq

/-- interface PersistentEnhancedIndex. -/
structure PersistentEnhancedIndex where
  metadata : PersistentIndexMetadata
  creatures : List EnhancedCreatureIndex
deriving DecidableEq

/-- private readonly INDEX_VERSION = '1.0.0'. -/
def INDEX_VERSION : String := "1.0.0"

/-! ## Host platform model: packs and documents

A compendium pack handle as the index code reads it. Calls into the host
that the source awaits and guards with try/catch are modelled as boolean
outcome fields: getIndexThrows models `await pack.getIndex({})` throwing
(caught per pack by the D&D 5e build loop), getDocumentsThrows models
`await pack.getDocuments()` throwing (caught inside the per-pack extractor). -/

/-- Metadata of a pack handle (pack.metadata). -/
structure PackMeta where
  id : String
  label : String
  ptype : String
  lastModified : Option Int
deriving DecidableEq

/-- A raw challenge-rating field value as the extraction chain resolves it:
absent, a number, or a string to be normalized (fractional encodings). -/
inductive CRRaw where
  | missing
  | numv (q : Rat)
  | strv (s : String)
deriving DecidableEq

/-- Resolved field values of doc.system for a D&D 5e document. The source
reads each field through a chain of alternative locations with null and
type guards (lines 705-793); the chain result is modelled as one resolved
value per field, since no claim under verification depends on which
alternative location supplied it. -/
structure DnD5eSystemFields where
  crRaw : CRRaw
  creatureType : String
  size : String
  hitPoints : Rat
  armorClass : Rat
  alignment : String
  hasSpells : Bool
  hasLegendaryActions : Bool
  description : String
deriving DecidableEq

/-- Resolved field values of doc.system for a PF2e document. -/
structure PF2eSystemFields where
  level : Int
  traits : List String
  rarity : String
  sizeRaw : String
  hitPoints : Rat
  armorClass : Rat
  hasSpells : Bool
  alignment : String
  description : String
deriving DecidableEq

/-- A source document as the extractors read it. extractThrows models an
exception raised while reading the document fields, which sends the
extractor into its catch block. -/
structure SourceDoc where
  id : String
  name : String
  type : String
  img : Option String
  sys5e : DnD5eSystemFields
  sysPf2e : PF2eSystemFields
  extractThrows : Bool
deriving DecidableEq

/-- A pack handle with its document listing. -/
structure Pack where
  metadata : PackMeta
  indexSize : Option Nat
  indexed : Bool
  getIndexThrows : Bool
  getDocumentsThrows : Bool
  documents : List SourceDoc
deriving DecidableEq

/-- Environment of one build or query: the host state the code reads. -/
structure Env where
  gameSystem : String
  packs : List Pack
  now : Int
  packsEnumThrows : Bool
  saveOk : Bool
  loadFails : Bool
deriving DecidableEq

/-- Mutable state owned by the index subsystem: the build-in-progress latch
and the persisted artifact on the backing store. -/
structure IndexState where
  buildInProgress : Bool
  store : Option PersistentEnhancedIndex
deriving DecidableEq

/-- Errors the build and query paths can raise. -/
inductive BuildErr where
  | buildInProgress
  | unsupportedSystem
  | packEnumFailed
  | saveFailed
deriving DecidableEq

/-- The Actor packs a build or validity check walks:
Array.from(game.packs.values()).filter(pack.metadata.type === 'Actor'). -/
def actorPacks (env : Env) : List Pack :=
  env.packs.filter (fun p => p.metadata.ptype = "Actor")

/-! ## Fingerprint Generator (generatePackFingerprint, generatePackChecksum,
fingerprintsMatch) -/

/-- generatePackChecksum: btoa of "id-label-size" truncated to 16 chars. -/
def generatePackChecksum (pack : Pack) : String :=
  ⟨(btoa (pack.metadata.id ++ "-" ++ pack.metadata.label ++ "-" ++
      toString (pack.indexSize.getD 0))).data.take 16⟩

/-- generatePackFingerprint: document count, coarse last-modified (falling
back to the current time), and the checksum. -/
def generatePackFingerprint (env : Env) (pack : Pack) : PackFingerprint :=
  { packId := pack.metadata.id
    packLabel := pack.metadata.label
    lastModified := pack.metadata.lastModified.getD env.now
    documentCount := pack.indexSize.getD 0
    checksum := generatePackChecksum pack }

/-- fingerprintsMatch: equality of documentCount and checksum only. -/
def fingerprintsMatch (current saved : PackFingerprint) : Bool :=
  current.documentCount == saved.documentCount &&
    current.checksum == saved.checksum

/-! ## Persistence Layer and Validity Checker -/

/-- loadPersistedIndex: any load failure (missing file, fetch or parse
error) is absorbed into a null result. -/
def loadPersistedIndex (env : Env) (st : IndexState) : Option PersistentEnhancedIndex :=
  if env.loadFails then none else st.store

/-- savePersistedIndex: on upload success the artifact is replaced whole;
on failure the error is rethrown and the store is untouched. -/
def savePersistedIndex (env : Env) (st : IndexState) (index : PersistentEnhancedIndex) :
    Except BuildErr Unit × IndexState :=
  if env.saveOk then (.ok (), { st with store := some index })
  else (.error .saveFailed, st)

/-- isIndexValid: version match, game-system match, a matching fingerprint
for every live Actor pack, and no stored fingerprint for a vanished pack. -/
def isIndexValid (env : Env) (existingIndex : PersistentEnhancedIndex) : Bool :=
  if existingIndex.metadata.version ≠ INDEX_VERSION then false
  else if existingIndex.metadata.gameSystem ≠ env.gameSystem then false
  else
    ((actorPacks env).all (fun pack =>
      match existingIndex.metadata.packFingerprints.lookup pack.metadata.id with
      | none => false
      | some saved => fingerprintsMatch (generatePackFingerprint env pack) saved))
    && existingIndex.metadata.packFingerprints.all
         (fun entry => env.packs.any (fun p => p.metadata.id = entry.1))

/-! ## Dialect A (D&D 5e) extraction -/

/-- Digit test for the numeral parser. -/
def isDigitChar (c : Char) : Bool := '0' ≤ c ∧ c ≤ '9'

/-- Digits to a natural number. -/
def digitsToNat (l : List Char) : Nat := l.foldl (fun n c => n * 10 + (c.toNat - 48)) 0

/-- Model of parseFloat(s) || 0 on the plain decimal numerals challenge
rating strings take; any other form yields 0 as the falsy-or does for NaN. -/
def parseFloatOrZero (s : String) : Rat :=
  let cs := (jsTrim s).data
  let intPart := cs.takeWhile isDigitChar
  let rest := cs.dropWhile isDigitChar
  if intPart.isEmpty then 0
  else
    match rest with
    | '.' :: fr =>
      let frac := fr.takeWhile isDigitChar
      (digitsToNat intPart : Rat) + (digitsToNat frac : Rat) / ((10 : Rat) ^ frac.length)
    | _ => (digitsToNat intPart : Rat)

/-- Challenge-rating normalization (lines 717-729): null or absent becomes
0, the fraction strings become their values, other strings go through
parseFloat with 0 as the falsy fallback, numbers pass unchanged. -/
def normalizeChallengeRating : CRRaw → Rat
  | .missing => 0
  | .numv q => q
  | .strv s =>
    if s = "1/8" then mkRat 1 8
    else if s = "1/4" then mkRat 1 4
    else if s = "1/2" then mkRat 1 2
    else parseFloatOrZero s

/-- extractDnD5eCreatureData: on success one profile built from the
resolved system fields with 0 errors; when reading the document throws,
the catch block returns the fixed placeholder profile with 1 error so the
creature is not lost. The TS signature admits null but no path returns it. -/
def extractDnD5eCreatureData (doc : SourceDoc) (pack : Pack) : DnD5eCreatureIndex × Nat :=
  if doc.extractThrows then
    ({ id := doc.id
       name := doc.name
       type := doc.type
       pack := pack.metadata.id
       packLabel := pack.metadata.label
       challengeRating := 0
       creatureType := "unknown"
       size := "medium"
       hitPoints := 1
       armorClass := 10
       hasSpells := false
       hasLegendaryActions := false
       alignment := "unaligned"
       description := "Data extraction failed"
       img := some (doc.img.getD "") }, 1)
  else
    ({ id := doc.id
       name := doc.name
       type := doc.type
       pack := pack.metadata.id
       packLabel := pack.metadata.label
       challengeRating := normalizeChallengeRating doc.sys5e.crRaw
       creatureType := toLowerCase doc.sys5e.creatureType
       size := toLowerCase doc.sys5e.size
       hitPoints := doc.sys5e.hitPoints
       armorClass := doc.sys5e.armorClass
       hasSpells := doc.sys5e.hasSpells
       hasLegendaryActions := doc.sys5e.hasLegendaryActions
       alignment := toLowerCase doc.sys5e.alignment
       description := doc.sys5e.description
       img := doc.img }, 0)

/-- Recognized entity kinds: only npc and character documents are indexed. -/
def recognizedKind (doc : SourceDoc) : Bool :=
  doc.type == "npc" || doc.type == "character"

/-- One iteration of the document loop (lines 673-690): skip documents of
unrecognized kinds, push the extracted creature and add its error count
otherwise. -/
def extract5eStep (pack : Pack) (acc : List DnD5eCreatureIndex × Nat)
    (doc : SourceDoc) : List DnD5eCreatureIndex × Nat :=
  if ¬ recognizedKind doc then acc
  else (acc.1 ++ [(extractDnD5eCreatureData doc pack).1],
        acc.2 + (extractDnD5eCreatureData doc pack).2)

/-- extractDnD5eDataFromPack: load the documents (a throwing load is caught
and counted as one error with zero creatures), then accumulate one
extraction result per document of a recognized kind. The per-document
try/catch in the loop is unreachable because the single-document extractor
already catches internally. -/
def extractDnD5eDataFromPack (pack : Pack) : List DnD5eCreatureIndex × Nat :=
  if pack.getDocumentsThrows then ([], 1)
  else pack.documents.foldl (extract5eStep pack) ([], 0)

/-! ## Dialect B (PF2e) extraction -/

/-- The closed list of primary creature-type traits (lines 980-983). -/
def creatureTraits : List String :=
  ["aberration", "animal", "beast", "celestial", "construct", "dragon",
   "elemental", "fey", "fiend", "fungus", "humanoid", "monitor", "ooze",
   "plant", "undead"]

/-- PF2e size-code normalization table (lines 994-1001). -/
def pf2eSizeMap : List (String × String) :=
  [("tiny", "tiny"), ("sm", "small"), ("med", "medium"), ("lg", "large"),
   ("huge", "huge"), ("grg", "gargantuan")]

/-- extractPF2eCreatureData: success path builds a profile from the
resolved system fields (primary creature type is the first trait in the
closed list, size codes are normalized, alignment uppercased); the catch
path returns the fixed placeholder profile with 1 error. -/
def extractPF2eCreatureData (doc : SourceDoc) (pack : Pack) : PF2eCreatureIndex × Nat :=
  if doc.extractThrows then
    ({ id := doc.id
       name := doc.name
       type := doc.type
       pack := pack.metadata.id
       packLabel := pack.metadata.label
       level := 0
       traits := []
       creatureType := "unknown"
       rarity := "common"
       size := "medium"
       hitPoints := 1
       armorClass := 10
       hasSpells := false
       alignment := "N"
       description := "Data extraction failed"
       img := some (doc.img.getD "") }, 1)
  else
    let traits := doc.sysPf2e.traits
    let creatureType :=
      match traits.find? (fun t => creatureTraits.contains (toLowerCase t)) with
      | some t => toLowerCase t
      | none => "unknown"
    ({ id := doc.id
       name := doc.name
       type := doc.type
       pack := pack.metadata.id
       packLabel := pack.metadata.label
       level := doc.sysPf2e.level
       traits := traits
       creatureType := creatureType
       rarity := doc.sysPf2e.rarity
       size := (pf2eSizeMap.lookup (toLowerCase doc.sysPf2e.sizeRaw)).getD "medium"
       hitPoints := doc.sysPf2e.hitPoints
       armorClass := doc.sysPf2e.armorClass
       hasSpells := doc.sysPf2e.hasSpells
       alignment := toUpperCase doc.sysPf2e.alignment
       description := doc.sysPf2e.description
       img := doc.img }, 0)

/-- One iteration of the PF2e document loop (lines 938-954). -/
def extractPf2eStep (pack : Pack) (acc : List PF2eCreatureIndex × Nat)
    (doc : SourceDoc) : List PF2eCreatureIndex × Nat :=
  if ¬ recognizedKind doc then acc
  else (acc.1 ++ [(extractPF2eCreatureData doc pack).1],
        acc.2 + (extractPF2eCreatureData doc pack).2)

/-- extractPF2eDataFromPack: same accumulation loop as the dialect A one. -/
def extractPF2eDataFromPack (pack : Pack) : List PF2eCreatureIndex × Nat :=
  if pack.getDocumentsThrows then ([], 1)
  else pack.documents.foldl (extractPf2eStep pack) ([], 0)

/-! ## Index Builder -/

/-- JavaScript Map.set on the fingerprint map: replace in place when the
key is present, append otherwise. -/
def mapSet (m : List (String × PackFingerprint)) (k : String) (v : PackFingerprint) :
    List (String × PackFingerprint) :=
  if m.any (fun e => e.1 = k) then m.map (fun e => if e.1 = k then (k, v) else e)
  else m ++ [(k, v)]

/-- One iteration of the D&D 5e build loop over a pack (lines 551-609): if
loading the pack index throws, the catch at line 604 skips the pack whole
(no fingerprint, no creatures, and the total error counter is not bumped
there); otherwise record the fingerprint and accumulate the extraction. -/
def dnd5ePackStep (env : Env) (acc : List DnD5eCreatureIndex × List (String × PackFingerprint) × Nat)
    (pack : Pack) : List DnD5eCreatureIndex × List (String × PackFingerprint) × Nat :=
  if ¬ pack.indexed ∧ pack.getIndexThrows then acc
  else
    let fps := mapSet acc.2.1 pack.metadata.id (generatePackFingerprint env pack)
    let r := extractDnD5eDataFromPack pack
    (acc.1 ++ r.1, fps, acc.2.2 + r.2)

/-- Creatures, fingerprints and error count a completed D&D 5e build of
this environment assembles. -/
def dnd5eBuildData (env : Env) : List DnD5eCreatureIndex × List (String × PackFingerprint) × Nat :=
  (actorPacks env).foldl (dnd5ePackStep env) ([], [], 0)

/-- The whole persistent index a completed D&D 5e build hands to the
persistence layer (lines 618-627). -/
def dnd5ePersistentIndex (env : Env) : PersistentEnhancedIndex :=
  { metadata :=
      { version := INDEX_VERSION
        timestamp := env.now
        packFingerprints := (dnd5eBuildData env).2.1
        totalCreatures := (dnd5eBuildData env).1.length
        gameSystem := "dnd5e" }
    creatures := (dnd5eBuildData env).1.map .dnd5e }

/-- buildDnD5eIndex: set the latch, walk every Actor pack (throwing pack
enumeration aborts with the store untouched), assemble the whole index,
hand it to savePersistedIndex in one write, rethrow a write failure, and
clear the latch in the finally block on every path. -/
def buildDnD5eIndex (env : Env) (st : IndexState) :
    Except BuildErr (List DnD5eCreatureIndex) × IndexState :=
  let st1 : IndexState := { st with buildInProgress := true }
  if env.packsEnumThrows then
    (.error .packEnumFailed, { st1 with buildInProgress := false })
  else
    match savePersistedIndex env st1 (dnd5ePersistentIndex env) with
    | (.ok _, st2) => (.ok (dnd5eBuildData env).1, { st2 with buildInProgress := false })
    | (.error e, st2) => (.error e, { st2 with buildInProgress := false })

/-- One iteration of the PF2e build loop over a pack (lines 864-880);
unlike the dialect A loop it has no per-pack try/catch. -/
def pf2ePackStep (env : Env) (acc : List PF2eCreatureIndex × List (String × PackFingerprint) × Nat)
    (pack : Pack) : List PF2eCreatureIndex × List (String × PackFingerprint) × Nat :=
  let fps := mapSet acc.2.1 pack.metadata.id (generatePackFingerprint env pack)
  let r := extractPF2eDataFromPack pack
  (acc.1 ++ r.1, fps, acc.2.2 + r.2)

/-- Creatures, fingerprints and error count a completed PF2e build of this
environment assembles. -/
def pf2eBuildData (env : Env) : List PF2eCreatureIndex × List (String × PackFingerprint) × Nat :=
  (actorPacks env).foldl (pf2ePackStep env) ([], [], 0)

/-- The whole persistent index a completed PF2e build writes. -/
def pf2ePersistentIndex (env : Env) : PersistentEnhancedIndex :=
  { metadata :=
      { version := INDEX_VERSION
        timestamp := env.now
        packFingerprints := (pf2eBuildData env).2.1
        totalCreatures := (pf2eBuildData env).1.length
        gameSystem := "pf2e" }
    creatures := (pf2eBuildData env).1.map .pf2e }

/-- buildPF2eIndex: same lifecycle as the dialect A builder. -/
def buildPF2eIndex (env : Env) (st : IndexState) :
    Except BuildErr (List PF2eCreatureIndex) × IndexState :=
  let st1 : IndexState := { st with buildInProgress := true }
  if env.packsEnumThrows then
    (.error .packEnumFailed, { st1 with buildInProgress := false })
  else
    match savePersistedIndex env st1 (pf2ePersistentIndex env) with
    | (.ok _, st2) => (.ok (pf2eBuildData env).1, { st2 with buildInProgress := false })
    | (.error e, st2) => (.error e, { st2 with buildInProgress := false })

/-- buildEnhancedIndex (lines 512-530): a non-forced request while the
latch is set fails fast with the build-in-progress error and touches
nothing; otherwise route to the builder of the active game system, and
throw the unsupported-system error for any other system. -/
def buildEnhancedIndex (force : Bool) (env : Env) (st : IndexState) :
    Except BuildErr (List EnhancedCreatureIndex) × IndexState :=
  if st.buildInProgress ∧ ¬ force then (.error .buildInProgress, st)
  else if env.gameSystem = "pf2e" then
    match buildPF2eIndex env st with
    | (.ok cs, st2) => (.ok (cs.map .pf2e), st2)
    | (.error e, st2) => (.error e, st2)
  else if env.gameSystem = "dnd5e" then
    match buildDnD5eIndex env st with
    | (.ok cs, st2) => (.ok (cs.map .dnd5e), st2)
    | (.error e, st2) => (.error e, st2)
  else (.error .unsupportedSystem, st)

/-- rebuildIndex (lines 277-279): always delegates a forced build; the
method takes no force parameter. -/
def rebuildIndex (env : Env) (st : IndexState) :
    Except BuildErr (List EnhancedCreatureIndex) × IndexState :=
  buildEnhancedIndex true env st

/-- getEnhancedIndex (lines 262-272): serve the loaded index when it is
valid, otherwise run a non-forced build. -/
def getEnhancedIndex (env : Env) (st : IndexState) :
    Except BuildErr (List EnhancedCreatureIndex) × IndexState :=
  match loadPersistedIndex env st with
  | some existingIndex =>
    if isIndexValid env existingIndex then (.ok existingIndex.creatures, st)
    else buildEnhancedIndex false env st
  | none => buildEnhancedIndex false env st

/-! ## Query Engine: criteria and filtering -/

/-- A numeric criterion on the challenge rating: an exact number or a
min/max range object with both bounds optional. -/
inductive NumCriterion where
  | exact (value : Rat)
  | range (min max : Option Rat)
deriving DecidableEq

/-- A numeric criterion on the PF2e level. -/
inductive LevelCriterion where
  | exact (value : Int)
  | range (min max : Option Int)
deriving DecidableEq

/-- The criteria object listCreaturesByCriteria receives; every field is
optional. -/
structure Criteria where
  challengeRating : Option NumCriterion := none
  level : Option LevelCriterion := none
  creatureType : Option String := none
  size : Option String := none
  hasSpells : Option Bool := none
  hasLegendaryActions : Option Bool := none
  traits : Option (List String) := none
  rarity : Option String := none
  limit : Option Nat := none
deriving DecidableEq

/-- passesDnD5eCriteria (lines 1659-1713) as the conjunction its early
returns compute: optional exact or range challenge-rating predicate with
each absent bound skipped, case-insensitive equality on creatureType and
size behind a truthiness guard (an empty-string criterion is skipped),
exact boolean match on hasSpells and hasLegendaryActions. -/
def passesDnD5eCriteria (creature : DnD5eCreatureIndex) (criteria : Criteria) : Bool :=
  (match criteria.challengeRating with
   | none => true
   | some (.exact v) => creature.challengeRating == v
   | some (.range mn mx) =>
     (match mn with
      | none => true
      | some a => decide (a ≤ creature.challengeRating)) &&
     (match mx with
      | none => true
      | some b => decide (creature.challengeRating ≤ b)))
  &&
  (match criteria.creatureType with
   | none => true
   | some ct => ct == "" || toLowerCase creature.creatureType == toLowerCase ct)
  &&
  (match criteria.size with
   | none => true
   | some s => s == "" || toLowerCase creature.size == toLowerCase s)
  &&
  (match criteria.hasSpells with
   | none => true
   | some b => creature.hasSpells == b)
  &&
  (match criteria.hasLegendaryActions with
   | none => true
   | some b => creature.hasLegendaryActions == b)

/-- passesPF2eCriteria (lines 1718-1773): the level range destructures
with defaults min = -1 and max = 25 for absent bounds; the traits
criterion demands every requested trait case-insensitively; rarity is
compared case-sensitively behind a truthiness guard; creatureType and
size case-insensitively; hasSpells exactly. -/
def passesPF2eCriteria (creature : PF2eCreatureIndex) (criteria : Criteria) : Bool :=
  (match criteria.level with
   | none => true
   | some (.exact v) => creature.level == v
   | some (.range mn mx) =>
     decide (mn.getD (-1) ≤ creature.level) && decide (creature.level ≤ mx.getD 25))
  &&
  (match criteria.traits with
   | none => true
   | some ts =>
     if ts.length > 0 then
       ts.all (fun requiredTrait =>
         creature.traits.any (fun t => toLowerCase t == toLowerCase requiredTrait))
     else true)
  &&
  (match criteria.rarity with
   | none => true
   | some r => r == "" || creature.rarity == r)
  &&
  (match criteria.creatureType with
   | none => true
   | some ct => ct == "" || toLowerCase creature.creatureType == toLowerCase ct)
  &&
  (match criteria.size with
   | none => true
   | some s => s == "" || toLowerCase creature.size == toLowerCase s)
  &&
  (match criteria.hasSpells with
   | none => true
   | some b => creature.hasSpells == b)

/-- passesEnhancedCriteria (lines 1647-1654): dialect routing on the
presence of the level field. -/
def passesEnhancedCriteria (creature : EnhancedCreatureIndex) (criteria : Criteria) : Bool :=
  match creature with
  | .pf2e c => passesPF2eCriteria c criteria
  | .dnd5e c => passesDnD5eCriteria c criteria

/-! ## Query Engine: sorting and the criteria query

Array.prototype.sort with a comparator is stable (ES2019), so the sort at
lines 1546-1555 is modelled as a stable insertion sort driven by the
strict order the comparator encodes: ascending power metric, then
ascending name. -/

/-- The strict order of the sort comparator: powerA - powerB, then
name localeCompare. -/
def creatureLtB (a b : EnhancedCreatureIndex) : Bool :=
  decide (powerOf a < powerOf b) ||
    (decide (powerOf a = powerOf b) && localeLt (nameOf a) (nameOf b))

/-- Insert x into a sorted list: walk past every element strictly below x,
so x lands after all elements it ties with (stability). -/
def stableInsert (lt : α → α → Bool) (x : α) : List α → List α
  | [] => [x]
  | y :: ys => if lt y x then y :: stableInsert lt x ys else x :: y :: ys

/-- Stable sort by a strict order: elements the order does not separate
keep their original relative position. -/
def stableSort (lt : α → α → Bool) : List α → List α
  | [] => []
  | x :: xs => stableInsert lt x (stableSort lt xs)

/-- listCreaturesByCriteria (lines 1518-1560), the enhanced path reduced
to its result list: default the limit through the falsy-or (so an
explicit 0 becomes 500), filter by the criteria conjunction, sort by
power then name, and slice to the limit when the list is longer. The
source then maps each creature to a result record and assembles a search
summary, both order-preserving and outside the claims. -/
def listCreaturesByCriteria (enhancedCreatures : List EnhancedCreatureIndex)
    (criteria : Criteria) : List EnhancedCreatureIndex :=
  let limit := match criteria.limit with
    | none => 500
    | some n => if n = 0 then 500 else n
  let filteredCreatures := enhancedCreatures.filter
    (fun c => passesEnhancedCriteria c criteria)
  let sortedCreatures := stableSort creatureLtB filteredCreatures
  if sortedCreatures.length > limit then sortedCreatures.take limit
  else sortedCreatures

/-! ## Free-text search validation (searchCompendium, lines 1165-1229) -/

/-- The two validation errors the free-text entry point can raise. -/
inductive SearchErr where
  | queryTooShort
  | noSearchTerms
deriving DecidableEq

/-- The validation prefix of searchCompendium: reject a query whose
trimmed length is under 2; then lowercase, trim, split on spaces, drop
empty terms, and reject an empty term list. -/
def searchCompendiumValidate (query : String) : Option SearchErr :=
  if (jsTrim query).length < 2 then some .queryTooShort
  else
    let cleanQuery := jsTrim (toLowerCase query)
    let searchTerms := (splitOnSpace cleanQuery).filter (fun term => term.length > 0)
    if searchTerms.length = 0 then some .noSearchTerms else none

/-! ## Concrete instances used by the witnesses and counterexamples -/

/-- Success test on an Except result. -/
def exceptIsOk : Except ε α → Bool
  | .ok _ => true
  | .error _ => false

/-- Resolved dialect A system fields of a well-formed document. -/
def sys5eA : DnD5eSystemFields :=
  { crRaw := .numv 3
    creatureType := "Beast"
    size := "Medium"
    hitPoints := 10
    armorClass := 12
    alignment := "Neutral Evil"
    hasSpells := false
    hasLegendaryActions := false
    description := "a beast" }

/-- Resolved dialect B system fields of a well-formed document. -/
def sysPf2eA : PF2eSystemFields :=
  { level := 1
    traits := ["animal"]
    rarity := "common"
    sizeRaw := "med"
    hitPoints := 10
    armorClass := 12
    hasSpells := false
    alignment := "n"
    description := "a beast" }

/-- A recognized document whose extraction throws. -/
def docAlpha : SourceDoc :=
  { id := "d1", name := "Alpha", type := "npc", img := none,
    sys5e := sys5eA, sysPf2e := sysPf2eA, extractThrows := true }

/-- A recognized document whose extraction succeeds. -/
def docBeta : SourceDoc :=
  { id := "d2", name := "Beta", type := "character", img := some "b.png",
    sys5e := sys5eA, sysPf2e := sysPf2eA, extractThrows := false }

/-- A document of an unrecognized kind. -/
def docGamma : SourceDoc :=
  { id := "d3", name := "Gamma", type := "spell", img := none,
    sys5e := sys5eA, sysPf2e := sysPf2eA, extractThrows := false }

/-- One well-behaved Actor pack holding the three documents. -/
def packP1 : Pack :=
  { metadata := { id := "p1", label := "P", ptype := "Actor", lastModified := some 5 }
    indexSize := some 3
    indexed := true
    getIndexThrows := false
    getDocumentsThrows := false
    documents := [docAlpha, docBeta, docGamma] }

/-- Baseline environment: one Actor pack, D&D 5e, everything healthy. -/
def envBase : Env :=
  { gameSystem := "dnd5e", packs := [packP1], now := 7,
    packsEnumThrows := false, saveOk := true, loadFails := false }

/-- Environment whose persistence write fails. -/
def envSaveFail : Env := { envBase with saveOk := false }

/-- Environment whose pack enumeration throws. -/
def envEnumFail : Env := { envBase with packsEnumThrows := true }

/-- Idle state with an empty store. -/
def stEmpty : IndexState := { buildInProgress := false, store := none }

/-- State with a build already in flight. -/
def stBusy : IndexState := { buildInProgress := true, store := none }

/-- A previously persisted index (old schema version). -/
def idxPrev : PersistentEnhancedIndex :=
  { metadata := { version := "0.9.0", timestamp := 0, packFingerprints := [],
                  totalCreatures := 0, gameSystem := "dnd5e" }
    creatures := [] }

/-- Idle state still holding the previously persisted index. -/
def stPrev : IndexState := { buildInProgress := false, store := some idxPrev }

/-- The index a completed baseline build persists. -/
def idxGood : PersistentEnhancedIndex := dnd5ePersistentIndex envBase

/-- Dialect A profile named A with power 2. -/
def profA : EnhancedCreatureIndex :=
  .dnd5e { id := "a", name := "A", type := "npc", pack := "p1", packLabel := "P",
           challengeRating := 2, creatureType := "beast", size := "medium",
           hitPoints := 10, armorClass := 12, hasSpells := false,
           hasLegendaryActions := false, alignment := "unaligned",
           description := "", img := none }

/-- Dialect A profile named B with power 5. -/
def profB : EnhancedCreatureIndex :=
  .dnd5e { id := "b", name := "B", type := "npc", pack := "p1", packLabel := "P",
           challengeRating := 5, creatureType := "beast", size := "medium",
           hitPoints := 30, armorClass := 15, hasSpells := false,
           hasLegendaryActions := false, alignment := "unaligned",
           description := "", img := none }

/-- Dialect A profile named C with power 2. -/
def profC : EnhancedCreatureIndex :=
  .dnd5e { id := "c", name := "C", type := "npc", pack := "p1", packLabel := "P",
           challengeRating := 2, creatureType := "beast", size := "medium",
           hitPoints := 12, armorClass := 13, hasSpells := false,
           hasLegendaryActions := false, alignment := "unaligned",
           description := "", img := none }

/-- The power range 2..2 query of the sort scenario. -/
def critPower22 : Criteria := { challengeRating := some (.range (some 2) (some 2)) }

/-- A PF2e creature of level 26 (the PF2e level scale is open above 25). -/
def pf2eLvl26 : PF2eCreatureIndex :=
  { id := "z", name := "Zmey", type := "npc", pack := "p1", packLabel := "P",
    level := 26, traits := ["dragon"], creatureType := "dragon",
    rarity := "unique", size := "gargantuan", hitPoints := 500,
    armorClass := 50, hasSpells := true, alignment := "CE",
    description := "", img := none }

/-- A level criterion giving only a lower bound of 0. -/
def critMin0 : Criteria := { level := some (.range (some 0) none) }

/-- The empty criteria object: every filter unspecified. -/
def critEmpty : Criteria := {}

/-! ## Supporting lemmas -/

/-- The extraction accumulator loop, characterized: starting from any
accumulator it appends one creature per recognized document and adds the
per-document error counts. -/
theorem dnd5eFoldAux (pack : Pack) (docs : List SourceDoc)
    (cs : List DnD5eCreatureIndex) (n : Nat) :
    docs.foldl (extract5eStep pack) (cs, n)
      = (cs ++ (docs.filter (fun d => recognizedKind d)).map
            (fun d => (extractDnD5eCreatureData d pack).1),
         n + ((docs.filter (fun d => recognizedKind d)).map
            (fun d => (extractDnD5eCreatureData d pack).2)).sum) := by
  induction docs generalizing cs n with
  | nil => simp
  | cons d ds ih =>
    rw [List.foldl_cons]
    by_cases h : recognizedKind d
    · rw [show extract5eStep pack (cs, n) d
          = (cs ++ [(extractDnD5eCreatureData d pack).1],
             n + (extractDnD5eCreatureData d pack).2) from by
            simp [extract5eStep, h]]
      rw [ih]
      simp only [List.filter_cons, if_pos h, List.map_cons, List.sum_cons,
        List.append_assoc, List.singleton_append]
      rw [Nat.add_assoc]
    · rw [show extract5eStep pack (cs, n) d = (cs, n) from by simp [extract5eStep, h]]
      rw [ih]
      simp [List.filter_cons, h]

/-- extractDnD5eDataFromPack on a pack whose document load succeeds:
one creature per recognized document, errors summed per document. -/
theorem extractDnD5eDataFromPack_eq (pack : Pack) (h : pack.getDocumentsThrows = false) :
    extractDnD5eDataFromPack pack
      = ((pack.documents.filter (fun d => recognizedKind d)).map
            (fun d => (extractDnD5eCreatureData d pack).1),
         ((pack.documents.filter (fun d => recognizedKind d)).map
            (fun d => (extractDnD5eCreatureData d pack).2)).sum) := by
  unfold extractDnD5eDataFromPack
  rw [if_neg (by simp [h])]
  simpa using dnd5eFoldAux pack pack.documents [] 0

/-- Both extraction paths carry the document id into the profile. -/
theorem extract5e_id (doc : SourceDoc) (pack : Pack) :
    (extractDnD5eCreatureData doc pack).1.id = doc.id := by
  unfold extractDnD5eCreatureData
  by_cases h : doc.extractThrows <;> simp [h]

/-- Both extraction paths report 1 error exactly when reading the
document threw. -/
theorem extract5e_errors (doc : SourceDoc) (pack : Pack) :
    (extractDnD5eCreatureData doc pack).2 = if doc.extractThrows then 1 else 0 := by
  unfold extractDnD5eCreatureData
  by_cases h : doc.extractThrows <;> simp [h]

/-- Among documents with pairwise distinct ids, filtering on one member
document's id keeps exactly that document. -/
theorem filter_id_eq_single {docs : List SourceDoc}
    (hnd : (docs.map SourceDoc.id).Nodup) {doc : SourceDoc} (hmem : doc ∈ docs) :
    docs.filter (fun d => d.id == doc.id) = [doc] := by
  induction docs with
  | nil => cases hmem
  | cons d ds ih =>
    simp only [List.map_cons, List.nodup_cons] at hnd
    rcases List.mem_cons.mp hmem with rfl | hmem2
    · have hnil : ds.filter (fun d2 => d2.id == doc.id) = [] := by
        rw [List.filter_eq_nil_iff]
        intro a ha
        simp only [beq_iff_eq]
        intro he
        exact hnd.1 (he ▸ List.mem_map_of_mem SourceDoc.id ha)
      simp [List.filter_cons, hnil]
    · have hne : d.id ≠ doc.id := by
        intro he
        exact hnd.1 (he ▸ List.mem_map_of_mem SourceDoc.id hmem2)
      simp only [List.filter_cons, beq_iff_eq, if_neg hne]
      exact ih hnd.2 hmem2

/-- Summed per-document error counts equal the number of throwing
documents. -/
theorem sum_extract_errors (pack : Pack) (l : List SourceDoc) :
    (l.map (fun d => (extractDnD5eCreatureData d pack).2)).sum
      = (l.filter (fun d => d.extractThrows)).length := by
  induction l with
  | nil => simp
  | cons d ds ih =>
    simp only [extract5e_errors] at ih ⊢
    simp only [List.map_cons, List.sum_cons, List.filter_cons]
    by_cases h : d.extractThrows
    · rw [if_pos h, if_pos h]
      simp only [List.length_cons]
      omega
    · rw [if_neg h, if_neg h]
      omega

/-! ## Claim C1 -/

/-- Claim C1: no-loss. In a pack whose document load completes, every
document of a recognized kind (npc or character) contributes exactly one
profile carrying its id to the extraction result; when reading a document
throws, that profile is the fixed placeholder (challengeRating 0,
hitPoints 1, armorClass 10, description "Data extraction failed") with one
error counted, and the error counter of the pack equals the number of
recognized documents whose extraction threw — the document is neither
omitted nor does it abort the pack. -/
theorem claimC1_noLoss (pack : Pack) (hdocs : pack.getDocumentsThrows = false)
    (hids : (pack.documents.map SourceDoc.id).Nodup)
    (doc : SourceDoc) (hmem : doc ∈ pack.documents) (hkind : recognizedKind doc = true) :
    ((extractDnD5eDataFromPack pack).1.filter (fun c => c.id == doc.id)
        = [(extractDnD5eCreatureData doc pack).1])
    ∧ ((extractDnD5eDataFromPack pack).1.countP (fun c => c.id == doc.id) = 1)
    ∧ (doc.extractThrows = true →
        (extractDnD5eCreatureData doc pack).1 =
          { id := doc.id, name := doc.name, type := doc.type,
            pack := pack.metadata.id, packLabel := pack.metadata.label,
            challengeRating := 0, creatureType := "unknown", size := "medium",
            hitPoints := 1, armorClass := 10, hasSpells := false,
            hasLegendaryActions := false, alignment := "unaligned",
            description := "Data extraction failed",
            img := some (doc.img.getD "") }
        ∧ (extractDnD5eCreatureData doc pack).2 = 1)
    ∧ (extractDnD5eDataFromPack pack).2
        = (pack.documents.filter (fun d => recognizedKind d && d.extractThrows)).length := by
  have hchar := extractDnD5eDataFromPack_eq pack hdocs
  have hfst : (extractDnD5eDataFromPack pack).1
      = (pack.documents.filter (fun d => recognizedKind d)).map
          (fun d => (extractDnD5eCreatureData d pack).1) := by
    rw [hchar]
  have hsnd : (extractDnD5eDataFromPack pack).2
      = ((pack.documents.filter (fun d => recognizedKind d)).map
          (fun d => (extractDnD5eCreatureData d pack).2)).sum := by
    rw [hchar]
  have h1 : (extractDnD5eDataFromPack pack).1.filter (fun c => c.id == doc.id)
      = [(extractDnD5eCreatureData doc pack).1] := by
    rw [hfst, List.filter_map]
    have hcong : (pack.documents.filter (fun d => recognizedKind d)).filter
          ((fun c => c.id == doc.id) ∘ (fun d => (extractDnD5eCreatureData d pack).1))
        = (pack.documents.filter (fun d => recognizedKind d)).filter
            (fun d => d.id == doc.id) := by
      apply List.filter_congr
      intro x hx
      simp [Function.comp, extract5e_id]
    rw [hcong, List.filter_filter]
    have hcong2 : pack.documents.filter (fun a => (a.id == doc.id) && recognizedKind a)
        = pack.documents.filter (fun a => recognizedKind a && (a.id == doc.id)) := by
      apply List.filter_congr
      intro x hx
      exact Bool.and_comm ..
    rw [hcong2, ← List.filter_filter, filter_id_eq_single hids hmem]
    simp [hkind]
  refine ⟨h1, ?_, ?_, ?_⟩
  · rw [List.countP_eq_length_filter, h1]
    rfl
  · intro hthrow
    constructor <;> simp [extractDnD5eCreatureData, hthrow]
  · rw [hsnd, sum_extract_errors, List.filter_filter]
    apply congrArg List.length
    apply List.filter_congr
    intro x hx
    exact Bool.and_comm ..

/-- Witness for claim C1 at the concrete pack: the throwing document
docAlpha yields exactly one profile, the placeholder, and one error is
counted across the pack. -/
theorem claimC1_noLoss_witness :
    ((extractDnD5eDataFromPack packP1).1.filter (fun c => c.id == docAlpha.id)
        = [(extractDnD5eCreatureData docAlpha packP1).1])
    ∧ ((extractDnD5eDataFromPack packP1).1.countP (fun c => c.id == docAlpha.id) = 1)
    ∧ ((extractDnD5eCreatureData docAlpha packP1).1 =
          { id := docAlpha.id, name := docAlpha.name, type := docAlpha.type,
            pack := packP1.metadata.id, packLabel := packP1.metadata.label,
            challengeRating := 0, creatureType := "unknown", size := "medium",
            hitPoints := 1, armorClass := 10, hasSpells := false,
            hasLegendaryActions := false, alignment := "unaligned",
            description := "Data extraction failed",
            img := some (docAlpha.img.getD "") }
        ∧ (extractDnD5eCreatureData docAlpha packP1).2 = 1)
    ∧ (extractDnD5eDataFromPack packP1).2
        = (packP1.documents.filter (fun d => recognizedKind d && d.extractThrows)).length := by
  have h := claimC1_noLoss packP1 (by decide) (by decide) docAlpha (by decide) (by decide)
  exact ⟨h.1, h.2.1, h.2.2.1 (by decide), h.2.2.2⟩

/-! ## Claim C2 -/

/-- Claim C2 counterexample: in a healthy environment except for a failing
persistence write, the build call does not return the freshly built
profile list — it fails with the save error, while the previously
persisted index stays on the store. -/
theorem claimC2_counterexample :
    (buildDnD5eIndex envSaveFail stPrev).1 = Except.error BuildErr.saveFailed
    ∧ (buildDnD5eIndex envSaveFail stPrev).2.store = some idxPrev := by
  exact ⟨rfl, rfl⟩

/-- Claim C2 amended: when the build completes all packs but the
persistence write fails, buildDnD5eIndex rethrows the write failure to its
caller instead of returning the in-memory profile list; the previously
persisted index is left unchanged and the build latch is cleared. -/
theorem claimC2_amended (env : Env) (st : IndexState)
    (henum : env.packsEnumThrows = false) (hsave : env.saveOk = false) :
    buildDnD5eIndex env st
      = (Except.error BuildErr.saveFailed, { st with buildInProgress := false }) := by
  unfold buildDnD5eIndex savePersistedIndex
  rw [if_neg (by simp [henum]), if_neg (by simp [hsave])]

/-- Witness for the amended claim C2 at the concrete failing environment. -/
theorem claimC2_amended_witness :
    buildDnD5eIndex envSaveFail stPrev
      = (Except.error BuildErr.saveFailed, { stPrev with buildInProgress := false }) :=
  claimC2_amended envSaveFail stPrev (by decide) (by decide)

/-! ## Claim C3 -/

/-- Claim C3: the Validity Checker accepts a loaded persisted index
exactly when the schema version matches, the recorded game system matches
the active one, every existing Actor pack has a stored fingerprint whose
documentCount and checksum equal its freshly computed fingerprint, and no
stored fingerprint refers to a pack that no longer exists; and whenever a
loaded index is judged invalid, the next getEnhancedIndex call runs the
(non-forced) rebuild. -/
theorem claimC3_validity :
    (∀ (env : Env) (idx : PersistentEnhancedIndex),
      isIndexValid env idx = true ↔
        (idx.metadata.version = INDEX_VERSION ∧
         idx.metadata.gameSystem = env.gameSystem ∧
         (∀ pack ∈ actorPacks env, ∃ saved,
            idx.metadata.packFingerprints.lookup pack.metadata.id = some saved ∧
            (generatePackFingerprint env pack).documentCount = saved.documentCount ∧
            (generatePackFingerprint env pack).checksum = saved.checksum) ∧
         (∀ entry ∈ idx.metadata.packFingerprints, ∃ p ∈ env.packs, p.metadata.id = entry.1)))
    ∧ (∀ (env : Env) (st : IndexState) (idx : PersistentEnhancedIndex),
        loadPersistedIndex env st = some idx → isIndexValid env idx = false →
        getEnhancedIndex env st = buildEnhancedIndex false env st) := by
  constructor
  · intro env idx
    unfold isIndexValid
    by_cases hv : idx.metadata.version = INDEX_VERSION
    · rw [if_neg (by simp [hv])]
      by_cases hg : idx.metadata.gameSystem = env.gameSystem
      · rw [if_neg (by simp [hg])]
        simp only [Bool.and_eq_true, List.all_eq_true]
        constructor
        · rintro ⟨hall, horph⟩
          refine ⟨hv, hg, ?_, ?_⟩
          · intro pack hp
            have hm := hall pack hp
            cases hlk : idx.metadata.packFingerprints.lookup pack.metadata.id with
            | none => rw [hlk] at hm; simp at hm
            | some saved =>
              rw [hlk] at hm
              simp only [fingerprintsMatch, Bool.and_eq_true, beq_iff_eq] at hm
              exact ⟨saved, rfl, hm.1, hm.2⟩
          · intro entry he
            have := horph entry he
            simp only [List.any_eq_true, decide_eq_true_eq] at this
            exact this
        · rintro ⟨_, _, hall, horph⟩
          constructor
          · intro pack hp
            obtain ⟨saved, hlk, h1, h2⟩ := hall pack hp
            rw [hlk]
            simp [fingerprintsMatch, h1, h2]
          · intro entry he
            obtain ⟨p, hp, hpe⟩ := horph entry he
            simp only [List.any_eq_true, decide_eq_true_eq]
            exact ⟨p, hp, hpe⟩
      · rw [if_pos (by simp [hg])]
        simp [hg]
    · rw [if_pos (by simp [hv])]
      simp [hv]
  · intro env st idx hload hvalid
    unfold getEnhancedIndex
    rw [hload]
    simp [hvalid]

/-- Witness for claim C3: the index a completed baseline build writes
satisfies all four conditions, and a state holding a stale (old-version)
index makes getEnhancedIndex fall through to the rebuild. -/
theorem claimC3_validity_witness :
    (idxGood.metadata.version = INDEX_VERSION ∧
     idxGood.metadata.gameSystem = envBase.gameSystem ∧
     (∀ pack ∈ actorPacks envBase, ∃ saved,
        idxGood.metadata.packFingerprints.lookup pack.metadata.id = some saved ∧
        (generatePackFingerprint envBase pack).documentCount = saved.documentCount ∧
        (generatePackFingerprint envBase pack).checksum = saved.checksum) ∧
     (∀ entry ∈ idxGood.metadata.packFingerprints, ∃ p ∈ envBase.packs, p.metadata.id = entry.1))
    ∧ getEnhancedIndex envBase stPrev = buildEnhancedIndex false envBase stPrev := by
  constructor
  · exact (claimC3_validity.1 envBase idxGood).mp (by decide)
  · exact claimC3_validity.2 envBase stPrev idxPrev (by decide) (by decide)

/-! ## Builder case analysis (shared by claims C4 and C5) -/

/-- Every outcome of the D&D 5e builder: abort on pack enumeration, abort
on the write, or completion with the single whole-index write. -/
theorem buildDnD5e_cases (env : Env) (st : IndexState) :
    (env.packsEnumThrows = true ∧
      buildDnD5eIndex env st = (.error .packEnumFailed, { st with buildInProgress := false }))
    ∨ (env.saveOk = false ∧
      buildDnD5eIndex env st = (.error .saveFailed, { st with buildInProgress := false }))
    ∨ buildDnD5eIndex env st
        = (.ok (dnd5eBuildData env).1,
           { buildInProgress := false, store := some (dnd5ePersistentIndex env) }) := by
  unfold buildDnD5eIndex savePersistedIndex
  by_cases he : env.packsEnumThrows = true
  · left
    exact ⟨he, by rw [if_pos he]⟩
  · right
    by_cases hs : env.saveOk = true
    · right
      rw [if_neg he, if_pos hs]
    · left
      refine ⟨by simpa using hs, ?_⟩
      rw [if_neg he, if_neg hs]

/-- Every outcome of the PF2e builder. -/
theorem buildPF2e_cases (env : Env) (st : IndexState) :
    (env.packsEnumThrows = true ∧
      buildPF2eIndex env st = (.error .packEnumFailed, { st with buildInProgress := false }))
    ∨ (env.saveOk = false ∧
      buildPF2eIndex env st = (.error .saveFailed, { st with buildInProgress := false }))
    ∨ buildPF2eIndex env st
        = (.ok (pf2eBuildData env).1,
           { buildInProgress := false, store := some (pf2ePersistentIndex env) }) := by
  unfold buildPF2eIndex savePersistedIndex
  by_cases he : env.packsEnumThrows = true
  · left
    exact ⟨he, by rw [if_pos he]⟩
  · right
    by_cases hs : env.saveOk = true
    · right
      rw [if_neg he, if_pos hs]
    · left
      refine ⟨by simpa using hs, ?_⟩
      rw [if_neg he, if_neg hs]

/-- Every outcome of buildEnhancedIndex: the latch error (only non-forced
with the latch set), the unsupported-system error, one of the two abort
errors with the store untouched, or completion with the store holding the
whole index of the active dialect. -/
theorem buildEnhanced_cases (force : Bool) (env : Env) (st : IndexState) :
    (st.buildInProgress = true ∧ force = false ∧
      buildEnhancedIndex force env st = (.error .buildInProgress, st))
    ∨ buildEnhancedIndex force env st = (.error .unsupportedSystem, st)
    ∨ buildEnhancedIndex force env st
        = (.error .packEnumFailed, { st with buildInProgress := false })
    ∨ buildEnhancedIndex force env st
        = (.error .saveFailed, { st with buildInProgress := false })
    ∨ buildEnhancedIndex force env st
        = (.ok ((dnd5eBuildData env).1.map .dnd5e),
           { buildInProgress := false, store := some (dnd5ePersistentIndex env) })
    ∨ buildEnhancedIndex force env st
        = (.ok ((pf2eBuildData env).1.map .pf2e),
           { buildInProgress := false, store := some (pf2ePersistentIndex env) }) := by
  unfold buildEnhancedIndex
  by_cases hl : (st.buildInProgress = true ∧ ¬ (force = true))
  · left
    refine ⟨hl.1, ?_, by rw [if_pos hl]⟩
    cases force with
    | true => exact absurd rfl hl.2
    | false => rfl
  · rw [if_neg hl]
    by_cases hp : env.gameSystem = "pf2e"
    · rw [if_pos hp]
      rcases buildPF2e_cases env st with ⟨_, hb⟩ | ⟨_, hb⟩ | hb <;> rw [hb]
      · right; right; left; rfl
      · right; right; right; left; rfl
      · right; right; right; right; right; rfl
    · rw [if_neg hp]
      by_cases hd : env.gameSystem = "dnd5e"
      · rw [if_pos hd]
        rcases buildDnD5e_cases env st with ⟨_, hb⟩ | ⟨_, hb⟩ | hb <;> rw [hb]
        · right; right; left; rfl
        · right; right; right; left; rfl
        · right; right; right; right; left; rfl
      · rw [if_neg hd]
        right; left; rfl

/-! ## Claim C4 -/

/-- Claim C4: discard-on-failure atomicity. Whenever a build ends in an
error (latch conflict, unsupported system, pack enumeration abort, or
write failure), the persisted store is exactly what it was before; and in
every outcome the store is either untouched or holds the single
whole-index write assembled from all packs of the active dialect — there
is no partial or incremental write. -/
theorem claimC4_atomic (force : Bool) (env : Env) (st : IndexState) :
    (exceptIsOk (buildEnhancedIndex force env st).1 = false →
      (buildEnhancedIndex force env st).2.store = st.store)
    ∧ ((buildEnhancedIndex force env st).2.store = st.store ∨
       (buildEnhancedIndex force env st).2.store = some (dnd5ePersistentIndex env) ∨
       (buildEnhancedIndex force env st).2.store = some (pf2ePersistentIndex env)) := by
  rcases buildEnhanced_cases force env st with ⟨_, _, hb⟩ | hb | hb | hb | hb | hb <;> rw [hb]
  · exact ⟨fun _ => rfl, Or.inl rfl⟩
  · exact ⟨fun _ => rfl, Or.inl rfl⟩
  · exact ⟨fun _ => rfl, Or.inl rfl⟩
  · exact ⟨fun _ => rfl, Or.inl rfl⟩
  · exact ⟨fun h => by simp [exceptIsOk] at h, Or.inr (Or.inl rfl)⟩
  · exact ⟨fun h => by simp [exceptIsOk] at h, Or.inr (Or.inr rfl)⟩

/-- Witness for claim C4: a build aborted by a throwing pack enumeration
leaves the previously persisted index on the store. -/
theorem claimC4_atomic_witness :
    (buildEnhancedIndex false envEnumFail stPrev).2.store = stPrev.store :=
  (claimC4_atomic false envEnumFail stPrev).1 (by decide)

/-! ## Claim C5 -/

/-- Claim C5 counterexample: with a build in flight (latch set), the
exposed rebuildIndex entry point does not raise the build-in-progress
error — it takes no force flag, always forces, and here completes with a
successful build. -/
theorem claimC5_counterexample :
    exceptIsOk (rebuildIndex envBase stBusy).1 = true := by decide

/-- Claim C5 amended: while a build is in flight, a non-forced
buildEnhancedIndex request fails immediately with the build-in-progress
error and changes nothing; a forced request bypasses the latch check and
can never produce that error; and the exposed rebuildIndex entry point
takes no force parameter and always delegates a forced build, so it never
raises the build-in-progress error. -/
theorem claimC5_latch :
    (∀ (env : Env) (st : IndexState), st.buildInProgress = true →
        buildEnhancedIndex false env st = (.error .buildInProgress, st))
    ∧ (∀ (env : Env) (st : IndexState),
        (buildEnhancedIndex true env st).1 ≠ Except.error BuildErr.buildInProgress)
    ∧ (∀ (env : Env) (st : IndexState), rebuildIndex env st = buildEnhancedIndex true env st) := by
  refine ⟨?_, ?_, ?_⟩
  · intro env st h
    unfold buildEnhancedIndex
    rw [if_pos ⟨h, by simp⟩]
  · intro env st
    rcases buildEnhanced_cases true env st with ⟨_, hf, _⟩ | hb | hb | hb | hb | hb
    · exact absurd hf (by simp)
    · rw [hb]; simp
    · rw [hb]; simp
    · rw [hb]; simp
    · rw [hb]; simp
    · rw [hb]; simp
  · intro env st
    rfl

/-- Witness for the amended claim C5: a concrete non-forced request during
a running build fails fast with the latch error. -/
theorem claimC5_latch_witness :
    buildEnhancedIndex false envBase stBusy = (.error .buildInProgress, stBusy) :=
  claimC5_latch.1 envBase stBusy (by decide)

/-! ## Claim C6 -/

/-- Claim C6 counterexample: in dialect B an absent max bound does not
exclude nothing. The level-26 creature satisfies the given min bound 0 and
the criteria leave max unspecified, yet the predicate rejects it, because
the destructuring default caps absent max at 25. -/
theorem claimC6_counterexample :
    passesPF2eCriteria pf2eLvl26 critMin0 = false
    ∧ ((0 : Int) ≤ pf2eLvl26.level)
    ∧ critMin0.level = some (.range (some 0) none) := by
  exact ⟨by decide, by decide, rfl⟩

/-- Claim C6 amended: criteria are a strict conjunction over every profile
in both dialects — numeric exact or range predicates on the power metric
(challengeRating in dialect A with an absent min or max excluding nothing;
level in dialect B where an absent min defaults to -1 and an absent max to
25, so levels outside that window are excluded), case-insensitive equality
on creatureType and size, full containment of the requested traits,
exact boolean match on hasSpells and hasLegendaryActions, and every
unspecified criteria field always passes. -/
theorem claimC6_conjunction :
    (∀ (creature : DnD5eCreatureIndex) (criteria : Criteria),
      passesDnD5eCriteria creature criteria = true ↔
        ((∀ v, criteria.challengeRating = some (.exact v) →
            creature.challengeRating = v) ∧
         (∀ mn mx, criteria.challengeRating = some (.range mn mx) →
            (∀ a, mn = some a → a ≤ creature.challengeRating) ∧
            (∀ b, mx = some b → creature.challengeRating ≤ b)) ∧
         (∀ ct, criteria.creatureType = some ct → ct ≠ "" →
            toLowerCase creature.creatureType = toLowerCase ct) ∧
         (∀ s, criteria.size = some s → s ≠ "" →
            toLowerCase creature.size = toLowerCase s) ∧
         (∀ b, criteria.hasSpells = some b → creature.hasSpells = b) ∧
         (∀ b, criteria.hasLegendaryActions = some b →
            creature.hasLegendaryActions = b)))
    ∧ (∀ (creature : PF2eCreatureIndex) (criteria : Criteria),
      passesPF2eCriteria creature criteria = true ↔
        ((∀ v, criteria.level = some (.exact v) → creature.level = v) ∧
         (∀ mn mx, criteria.level = some (.range mn mx) →
            mn.getD (-1) ≤ creature.level ∧ creature.level ≤ mx.getD 25) ∧
         (∀ ts, criteria.traits = some ts →
            ∀ t ∈ ts, ∃ ct ∈ creature.traits, toLowerCase ct = toLowerCase t) ∧
         (∀ r, criteria.rarity = some r → r ≠ "" → creature.rarity = r) ∧
         (∀ ct, criteria.creatureType = some ct → ct ≠ "" →
            toLowerCase creature.creatureType = toLowerCase ct) ∧
         (∀ s, criteria.size = some s → s ≠ "" →
            toLowerCase creature.size = toLowerCase s) ∧
         (∀ b, criteria.hasSpells = some b → creature.hasSpells = b))) := by
  constructor
  · intro creature criteria
    simp only [passesDnD5eCriteria, Bool.and_eq_true]
    constructor
    · rintro ⟨⟨⟨⟨hcr, hct⟩, hsz⟩, hsp⟩, hla⟩
      refine ⟨?_, ?_, ?_, ?_, ?_, ?_⟩
      · intro v hv
        rw [hv] at hcr
        simpa using hcr
      · intro mn mx hv
        rw [hv] at hcr
        simp only [Bool.and_eq_true] at hcr
        obtain ⟨hmin, hmax⟩ := hcr
        constructor
        · intro a ha
          rw [ha] at hmin
          simpa using hmin
        · intro b hb
          rw [hb] at hmax
          simpa using hmax
      · intro ct hv hne
        rw [hv] at hct
        simp only [Bool.or_eq_true, beq_iff_eq] at hct
        rcases hct with h | h
        · exact absurd h hne
        · exact h
      · intro s hv hne
        rw [hv] at hsz
        simp only [Bool.or_eq_true, beq_iff_eq] at hsz
        rcases hsz with h | h
        · exact absurd h hne
        · exact h
      · intro b hb
        rw [hb] at hsp
        simpa using hsp
      · intro b hb
        rw [hb] at hla
        simpa using hla
    · rintro ⟨h1, h2, h3, h4, h5, h6⟩
      refine ⟨⟨⟨⟨?_, ?_⟩, ?_⟩, ?_⟩, ?_⟩
      · cases hc : criteria.challengeRating with
        | none => simp
        | some nc =>
          cases nc with
          | exact v => simp [h1 v hc]
          | range mn mx =>
            obtain ⟨hmin, hmax⟩ := h2 mn mx hc
            simp only [Bool.and_eq_true]
            constructor
            · cases mn with
              | none => simp
              | some a => simpa using hmin a rfl
            · cases mx with
              | none => simp
              | some b => simpa using hmax b rfl
      · cases hc : criteria.creatureType with
        | none => simp
        | some ct =>
          by_cases hne : ct = ""
          · simp [hne]
          · simp [h3 ct hc hne]
      · cases hc : criteria.size with
        | none => simp
        | some s =>
          by_cases hne : s = ""
          · simp [hne]
          · simp [h4 s hc hne]
      · cases hc : criteria.hasSpells with
        | none => simp
        | some b => simp [h5 b hc]
      · cases hc : criteria.hasLegendaryActions with
        | none => simp
        | some b => simp [h6 b hc]
  · intro creature criteria
    simp only [passesPF2eCriteria, Bool.and_eq_true]
    constructor
    · rintro ⟨⟨⟨⟨⟨hlv, htr⟩, hra⟩, hct⟩, hsz⟩, hsp⟩
      refine ⟨?_, ?_, ?_, ?_, ?_, ?_, ?_⟩
      · intro v hv
        rw [hv] at hlv
        simpa using hlv
      · intro mn mx hv
        rw [hv] at hlv
        simp only [Bool.and_eq_true, decide_eq_true_eq] at hlv
        exact hlv
      · intro ts hv t ht
        rw [hv] at htr
        by_cases hl : ts.length > 0
        · simp only [if_pos hl, List.all_eq_true, List.any_eq_true, beq_iff_eq] at htr
          exact htr t ht
        · have : ts = [] := List.length_eq_zero.mp (by omega)
          subst this
          cases ht
      · intro r hv hne
        rw [hv] at hra
        simp only [Bool.or_eq_true, beq_iff_eq] at hra
        rcases hra with h | h
        · exact absurd h hne
        · exact h
      · intro ct hv hne
        rw [hv] at hct
        simp only [Bool.or_eq_true, beq_iff_eq] at hct
        rcases hct with h | h
        · exact absurd h hne
        · exact h
      · intro s hv hne
        rw [hv] at hsz
        simp only [Bool.or_eq_true, beq_iff_eq] at hsz
        rcases hsz with h | h
        · exact absurd h hne
        · exact h
      · intro b hb
        rw [hb] at hsp
        simpa using hsp
    · rintro ⟨h1, h2, h3, h4, h5, h6, h7⟩
      refine ⟨⟨⟨⟨⟨?_, ?_⟩, ?_⟩, ?_⟩, ?_⟩, ?_⟩
      · cases hc : criteria.level with
        | none => simp
        | some nc =>
          cases nc with
          | exact v => simp [h1 v hc]
          | range mn mx =>
            obtain ⟨hmin, hmax⟩ := h2 mn mx hc
            simp [hmin, hmax]
      · cases hc : criteria.traits with
        | none => simp
        | some ts =>
          have hts := h3 ts hc
          by_cases hl : ts.length > 0
          · simp only [if_pos hl, List.all_eq_true, List.any_eq_true, beq_iff_eq]
            exact hts
          · simp only [if_neg hl]
      · cases hc : criteria.rarity with
        | none => simp
        | some r =>
          by_cases hne : r = ""
          · simp [hne]
          · simp [h4 r hc hne]
      · cases hc : criteria.creatureType with
        | none => simp
        | some ct =>
          by_cases hne : ct = ""
          · simp [hne]
          · simp [h5 ct hc hne]
      · cases hc : criteria.size with
        | none => simp
        | some s =>
          by_cases hne : s = ""
          · simp [hne]
          · simp [h6 s hc hne]
      · cases hc : criteria.hasSpells with
        | none => simp
        | some b => simp [h7 b hc]

/-- Witness for the amended claim C6: the empty criteria object passes the
level-26 creature, and the theorem turns that evaluation into the clause
conjunction. -/
theorem claimC6_conjunction_witness :
    (∀ v, critEmpty.level = some (.exact v) → pf2eLvl26.level = v) ∧
    (∀ mn mx, critEmpty.level = some (.range mn mx) →
       mn.getD (-1) ≤ pf2eLvl26.level ∧ pf2eLvl26.level ≤ mx.getD 25) ∧
    (∀ ts, critEmpty.traits = some ts →
       ∀ t ∈ ts, ∃ ct ∈ pf2eLvl26.traits, toLowerCase ct = toLowerCase t) ∧
    (∀ r, critEmpty.rarity = some r → r ≠ "" → pf2eLvl26.rarity = r) ∧
    (∀ ct, critEmpty.creatureType = some ct → ct ≠ "" →
       toLowerCase pf2eLvl26.creatureType = toLowerCase ct) ∧
    (∀ s, critEmpty.size = some s → s ≠ "" →
       toLowerCase pf2eLvl26.size = toLowerCase s) ∧
    (∀ b, critEmpty.hasSpells = some b → pf2eLvl26.hasSpells = b) :=
  (claimC6_conjunction.2 pf2eLvl26 critEmpty).mp (by decide)

/-! ## Stable sort lemmas (for claim C7) -/

/-- Inserting permutes: the result holds x and the old elements. -/
theorem stableInsert_perm (lt : α → α → Bool) (x : α) (l : List α) :
    (stableInsert lt x l).Perm (x :: l) := by
  induction l with
  | nil => simp [stableInsert]
  | cons y ys ih =>
    by_cases h : lt y x = true
    · simp only [stableInsert, if_pos h]
      exact (ih.cons y).trans (List.Perm.swap x y ys)
    · simp [stableInsert, h]

/-- Sorting permutes. -/
theorem stableSort_perm (lt : α → α → Bool) (l : List α) :
    (stableSort lt l).Perm l := by
  induction l with
  | nil => simp [stableSort]
  | cons x xs ih =>
    simp only [stableSort]
    exact (stableInsert_perm lt x (stableSort lt xs)).trans (ih.cons x)

/-- Inserting into a list sorted by the non-strict companion order keeps
it sorted, given asymmetry and negative transitivity of the strict order. -/
theorem stableInsert_pairwise {lt : α → α → Bool}
    (hasym : ∀ a b, lt a b = true → lt b a = false)
    (hneg : ∀ a b c, lt a b = false → lt b c = false → lt a c = false)
    (x : α) {l : List α} (h : l.Pairwise (fun a b => lt b a = false)) :
    (stableInsert lt x l).Pairwise (fun a b => lt b a = false) := by
  induction l with
  | nil => simp [stableInsert]
  | cons y ys ih =>
    rcases List.pairwise_cons.mp h with ⟨hy, hys⟩
    by_cases hlt : lt y x = true
    · simp only [stableInsert, if_pos hlt]
      apply List.pairwise_cons.mpr
      refine ⟨?_, ih hys⟩
      intro z hz
      rcases List.mem_cons.mp ((stableInsert_perm lt x ys).mem_iff.mp hz) with rfl | hz2
      · exact hasym _ _ hlt
      · exact hy z hz2
    · have hlt2 : lt y x = false := by simpa using hlt
      simp only [stableInsert, if_neg hlt]
      apply List.pairwise_cons.mpr
      refine ⟨?_, h⟩
      intro z hz
      rcases List.mem_cons.mp hz with rfl | hz2
      · exact hlt2
      · exact hneg z y x (hy z hz2) hlt2

/-- The sort output is sorted in the non-strict companion order. -/
theorem stableSort_pairwise {lt : α → α → Bool}
    (hasym : ∀ a b, lt a b = true → lt b a = false)
    (hneg : ∀ a b c, lt a b = false → lt b c = false → lt a c = false)
    (l : List α) :
    (stableSort lt l).Pairwise (fun a b => lt b a = false) := by
  induction l with
  | nil => simp [stableSort]
  | cons x xs ih =>
    simp only [stableSort]
    exact stableInsert_pairwise hasym hneg x ih

/-- Stability of the insert: restricted to elements the order cannot
separate from each other (a shared sort key), the insert appends x after
all of them exactly when x carries the key. -/
theorem filter_stableInsert {lt : α → α → Bool} (p : α → Bool)
    (hkey : ∀ a b, p a = true → p b = true → lt a b = false)
    (x : α) (l : List α) :
    (stableInsert lt x l).filter p = if p x then x :: l.filter p else l.filter p := by
  induction l with
  | nil => cases hpx : p x <;> simp [stableInsert, List.filter, hpx]
  | cons y ys ih =>
    by_cases hlt : lt y x = true
    · simp only [stableInsert, if_pos hlt]
      rw [List.filter_cons, ih]
      by_cases hpx : p x = true
      · have hpy : p y = false := by
          cases hpy2 : p y
          · rfl
          · exact absurd hlt (by rw [hkey y x hpy2 hpx]; simp)
        simp [hpy, hpx, List.filter_cons]
      · have hpx2 : p x = false := by simpa using hpx
        simp [hpx2, List.filter_cons]
    · simp only [stableInsert, if_neg hlt]
      rw [List.filter_cons]

/-- Stability of the sort: the elements sharing one sort key come out in
their original relative order. -/
theorem filter_stableSort {lt : α → α → Bool} (p : α → Bool)
    (hkey : ∀ a b, p a = true → p b = true → lt a b = false)
    (l : List α) :
    (stableSort lt l).filter p = l.filter p := by
  induction l with
  | nil => rfl
  | cons x xs ih =>
    simp only [stableSort]
    rw [filter_stableInsert p hkey, ih, List.filter_cons]

/-! ## Comparator order facts (for claims C7 and C8) -/

/-- The comparator strict order is asymmetric. -/
theorem creatureLt_asymm (a b : EnhancedCreatureIndex)
    (h : creatureLtB a b = true) : creatureLtB b a = false := by
  unfold creatureLtB localeLt at h ⊢
  simp only [Bool.or_eq_true, Bool.and_eq_true, decide_eq_true_eq] at h
  simp only [Bool.or_eq_false_iff, Bool.and_eq_false_iff, decide_eq_false_iff_not]
  rcases h with hlt | ⟨heq, hname⟩
  · exact ⟨not_lt.mpr (le_of_lt hlt), Or.inl (ne_of_gt hlt)⟩
  · refine ⟨by rw [heq]; exact lt_irrefl _, Or.inr ?_⟩
    exact lt_asymm hname

/-- The comparator strict order is negatively transitive. -/
theorem creatureLt_negtrans (a b c : EnhancedCreatureIndex)
    (h1 : creatureLtB a b = false) (h2 : creatureLtB b c = false) :
    creatureLtB a c = false := by
  unfold creatureLtB localeLt at h1 h2 ⊢
  simp only [Bool.or_eq_false_iff, Bool.and_eq_false_iff, decide_eq_false_iff_not] at h1 h2 ⊢
  obtain ⟨hp1, hn1⟩ := h1
  obtain ⟨hp2, hn2⟩ := h2
  have hba : powerOf b ≤ powerOf a := not_lt.mp hp1
  have hcb : powerOf c ≤ powerOf b := not_lt.mp hp2
  refine ⟨not_lt.mpr (le_trans hcb hba), ?_⟩
  by_cases hac : powerOf a = powerOf c
  · have hab : powerOf a = powerOf b := le_antisymm (hac ▸ hcb) hba
    have hbc : powerOf b = powerOf c := hab ▸ hac
    have hnab : ¬ (nameOf a).data < (nameOf b).data := by
      rcases hn1 with h | h
      · exact absurd hab h
      · exact h
    have hnbc : ¬ (nameOf b).data < (nameOf c).data := by
      rcases hn2 with h | h
      · exact absurd hbc h
      · exact h
    refine Or.inr ?_
    intro hnac
    exact absurd hnac
      (not_lt.mpr (le_trans (le_of_not_lt hnbc) (le_of_not_lt hnab)))
  · exact Or.inl hac

/-- The comparator rejects in exactly the claim's sorted-order relation:
the earlier element has strictly lower power, or equal power and a name
not after the later one. -/
theorem creatureLt_false_iff (a b : EnhancedCreatureIndex) :
    creatureLtB b a = false ↔
      (powerOf a < powerOf b ∨
        (powerOf a = powerOf b ∧ localeLt (nameOf b) (nameOf a) = false)) := by
  unfold creatureLtB
  simp only [Bool.or_eq_false_iff, Bool.and_eq_false_iff, decide_eq_false_iff_not]
  constructor
  · rintro ⟨h1, h2⟩
    rcases h2 with h2 | h2
    · exact Or.inl (lt_of_le_of_ne (not_lt.mp h1) (fun he => h2 he.symm))
    · by_cases he : powerOf a = powerOf b
      · exact Or.inr ⟨he, h2⟩
      · exact Or.inl (lt_of_le_of_ne (not_lt.mp h1) he)
  · rintro (h | ⟨he, hn⟩)
    · exact ⟨not_lt.mpr (le_of_lt h), Or.inl (ne_of_gt h)⟩
    · exact ⟨by rw [he]; exact lt_irrefl _, Or.inr hn⟩

/-- The query pipeline, characterized: filter, stable sort, then take the
effective limit. -/
theorem listCreaturesByCriteria_eq (cs : List EnhancedCreatureIndex) (crit : Criteria) :
    listCreaturesByCriteria cs crit
      = (stableSort creatureLtB (cs.filter (fun c => passesEnhancedCriteria c crit))).take
          (match crit.limit with | none => 500 | some n => if n = 0 then 500 else n) := by
  unfold listCreaturesByCriteria
  set limit := (match crit.limit with | none => 500 | some n => if n = 0 then 500 else n) with hl
  set sorted := stableSort creatureLtB (cs.filter (fun c => passesEnhancedCriteria c crit)) with hs
  by_cases h : sorted.length > limit
  · rw [if_pos h]
  · rw [if_neg h, List.take_of_length_le (by omega)]

/-! ## Claim C7 -/

/-- Claim C7: structured query results are sorted by power metric
ascending then name ascending; profiles the two keys cannot separate keep
their original relative order through the sort; and the spec scenario
holds — an index of A (power 2), B (power 5), C (power 2) filtered to the
power range 2..2 returns exactly A then C. -/
theorem claimC7_sortAndScenario :
    (∀ (cs : List EnhancedCreatureIndex) (crit : Criteria),
      (listCreaturesByCriteria cs crit).Pairwise
        (fun a b => powerOf a < powerOf b ∨
          (powerOf a = powerOf b ∧ localeLt (nameOf b) (nameOf a) = false)))
    ∧ (∀ (l : List EnhancedCreatureIndex) (P : Rat) (N : String),
        (stableSort creatureLtB l).filter (fun c => powerOf c == P && nameOf c == N)
          = l.filter (fun c => powerOf c == P && nameOf c == N))
    ∧ listCreaturesByCriteria [profA, profB, profC] critPower22 = [profA, profC] := by
  refine ⟨?_, ?_, by decide⟩
  · intro cs crit
    rw [listCreaturesByCriteria_eq]
    have hp := stableSort_pairwise creatureLt_asymm creatureLt_negtrans
      (cs.filter (fun c => passesEnhancedCriteria c crit))
    refine List.Pairwise.imp (fun h => (creatureLt_false_iff _ _).mp h) ?_
    exact List.Pairwise.sublist (List.take_sublist _ _) hp
  · intro l P N
    apply filter_stableSort
    intro a b ha hb
    simp only [Bool.and_eq_true, beq_iff_eq] at ha hb
    have hpw : powerOf a = powerOf b := ha.1.trans hb.1.symm
    have hnm : nameOf a = nameOf b := ha.2.trans hb.2.symm
    unfold creatureLtB localeLt
    simp only [Bool.or_eq_false_iff, Bool.and_eq_false_iff, decide_eq_false_iff_not]
    refine ⟨by rw [hpw]; exact lt_irrefl _, Or.inr ?_⟩
    rw [hnm]
    exact lt_irrefl _

/-! ## Claim C8 -/

/-- Claim C8: range monotonicity. With all non-power criteria fixed and
a ≤ c ≤ b, every profile passing the power range a..c also passes a..b,
in both dialect predicates; hence the a..b result set of a profile list
contains its a..c result set. -/
theorem claimC8_rangeMonotonic :
    (∀ (crit : Criteria) (a c b : Rat) (creature : DnD5eCreatureIndex),
      a ≤ c → c ≤ b →
      passesDnD5eCriteria creature
          { crit with challengeRating := some (.range (some a) (some c)) } = true →
      passesDnD5eCriteria creature
          { crit with challengeRating := some (.range (some a) (some b)) } = true)
    ∧ (∀ (crit : Criteria) (a c b : Int) (creature : PF2eCreatureIndex),
      a ≤ c → c ≤ b →
      passesPF2eCriteria creature
          { crit with level := some (.range (some a) (some c)) } = true →
      passesPF2eCriteria creature
          { crit with level := some (.range (some a) (some b)) } = true)
    ∧ (∀ (crit : Criteria) (a c b : Rat) (cs : List DnD5eCreatureIndex),
      a ≤ c → c ≤ b →
      ∀ x ∈ cs.filter (fun creature => passesDnD5eCriteria creature
          { crit with challengeRating := some (.range (some a) (some c)) }),
        x ∈ cs.filter (fun creature => passesDnD5eCriteria creature
          { crit with challengeRating := some (.range (some a) (some b)) }))
    ∧ (∀ (crit : Criteria) (a c b : Int) (cs : List PF2eCreatureIndex),
      a ≤ c → c ≤ b →
      ∀ x ∈ cs.filter (fun creature => passesPF2eCriteria creature
          { crit with level := some (.range (some a) (some c)) }),
        x ∈ cs.filter (fun creature => passesPF2eCriteria creature
          { crit with level := some (.range (some a) (some b)) })) := by
  have hA : ∀ (crit : Criteria) (a c b : Rat) (creature : DnD5eCreatureIndex),
      a ≤ c → c ≤ b →
      passesDnD5eCriteria creature
          { crit with challengeRating := some (.range (some a) (some c)) } = true →
      passesDnD5eCriteria creature
          { crit with challengeRating := some (.range (some a) (some b)) } = true := by
    intro crit a c b creature hac hcb h
    simp only [passesDnD5eCriteria, Bool.and_eq_true, decide_eq_true_eq] at h ⊢
    obtain ⟨⟨⟨⟨hcr, hct⟩, hsz⟩, hsp⟩, hla⟩ := h
    exact ⟨⟨⟨⟨⟨hcr.1, le_trans hcr.2 hcb⟩, hct⟩, hsz⟩, hsp⟩, hla⟩
  have hB : ∀ (crit : Criteria) (a c b : Int) (creature : PF2eCreatureIndex),
      a ≤ c → c ≤ b →
      passesPF2eCriteria creature
          { crit with level := some (.range (some a) (some c)) } = true →
      passesPF2eCriteria creature
          { crit with level := some (.range (some a) (some b)) } = true := by
    intro crit a c b creature hac hcb h
    simp only [passesPF2eCriteria, Bool.and_eq_true, decide_eq_true_eq,
      Option.getD_some] at h ⊢
    obtain ⟨⟨⟨⟨⟨hlv, htr⟩, hra⟩, hct⟩, hsz⟩, hsp⟩ := h
    exact ⟨⟨⟨⟨⟨⟨hlv.1, le_trans hlv.2 hcb⟩, htr⟩, hra⟩, hct⟩, hsz⟩, hsp⟩
  refine ⟨hA, hB, ?_, ?_⟩
  · intro crit a c b cs hac hcb x hx
    rw [List.mem_filter] at hx ⊢
    exact ⟨hx.1, hA crit a c b x hac hcb hx.2⟩
  · intro crit a c b cs hac hcb x hx
    rw [List.mem_filter] at hx ⊢
    exact ⟨hx.1, hB crit a c b x hac hcb hx.2⟩

/-- Witness for claim C8: a creature of challenge rating 3 passing the
range 2..3 passes the widened range 2..5, and the level-26 creature
passing 0..26 passes 0..30. -/
theorem claimC8_rangeMonotonic_witness :
    passesDnD5eCriteria (extractDnD5eCreatureData docBeta packP1).1
        { critEmpty with challengeRating := some (.range (some 2) (some 5)) } = true
    ∧ passesPF2eCriteria pf2eLvl26
        { critEmpty with level := some (.range (some 0) (some 30)) } = true := by
  constructor
  · exact claimC8_rangeMonotonic.1 critEmpty 2 3 5 _ (by decide) (by decide) (by decide)
  · exact claimC8_rangeMonotonic.2.1 critEmpty 0 26 30 pf2eLvl26
      (by decide) (by decide) (by decide)

/-! ## Claim C9 -/

/-- Claim C9 counterexample: search("kn") is not rejected. The trimmed
query "kn" has length 2, which passes the < 2 check, and yields the
non-empty term list, so no validation error is raised — contrary to the
spec scenario. -/
theorem claimC9_counterexample : searchCompendiumValidate "kn" = none := by decide

/-- Claim C9 amended: the free-text entry point raises a validation error
exactly when the trimmed query is shorter than 2 characters or the
lowercased, trimmed, space-split term list is empty; search("k") raises
the length error, while search("kn") — trimmed length exactly 2 — is
accepted. -/
theorem claimC9_validation :
    (∀ q : String, (searchCompendiumValidate q).isSome = true ↔
      ((jsTrim q).length < 2 ∨
       ((splitOnSpace (jsTrim (toLowerCase q))).filter
           (fun term => term.length > 0)).length = 0))
    ∧ searchCompendiumValidate "k" = some .queryTooShort
    ∧ searchCompendiumValidate "kn" = none := by
  refine ⟨?_, by decide, by decide⟩
  intro q
  simp only [searchCompendiumValidate]
  by_cases h : (jsTrim q).length < 2
  · simp [h]
  · rw [if_neg h]
    by_cases h2 : ((splitOnSpace (jsTrim (toLowerCase q))).filter
        (fun term => term.length > 0)).length = 0
    · simp [h, h2]
    · simp [h, h2]

/-- Witness for the amended claim C9: the single-character query "k" is
rejected, through the characterization applied at that input. -/
theorem claimC9_validation_witness :
    (searchCompendiumValidate "k").isSome = true :=
  (claimC9_validation.1 "k").mpr (Or.inl (by decide))

/-! ## Claim C10 -/

/-- Claim C10: a caller passing limit = 0 does not get zero results — the
falsy-or default replaces 0 with 500, so the query behaves exactly as
with limit 500 and returns at most 500 entries; on a one-profile index a
limit of 0 still returns that profile. -/
theorem claimC10_limitZero :
    (∀ (cs : List EnhancedCreatureIndex) (crit : Criteria), crit.limit = some 0 →
      listCreaturesByCriteria cs crit
        = listCreaturesByCriteria cs { crit with limit := some 500 })
    ∧ (∀ (cs : List EnhancedCreatureIndex) (crit : Criteria), crit.limit = some 0 →
      (listCreaturesByCriteria cs crit).length ≤ 500)
    ∧ listCreaturesByCriteria [profA] { limit := some 0 } = [profA] := by
  have hpass : ∀ (crit : Criteria) (c : EnhancedCreatureIndex),
      passesEnhancedCriteria c { crit with limit := some 500 }
        = passesEnhancedCriteria c crit := by
    intro crit c
    cases c <;> rfl
  have h1 : ∀ (cs : List EnhancedCreatureIndex) (crit : Criteria), crit.limit = some 0 →
      listCreaturesByCriteria cs crit
        = listCreaturesByCriteria cs { crit with limit := some 500 } := by
    intro cs crit hl
    rw [listCreaturesByCriteria_eq, listCreaturesByCriteria_eq]
    rw [List.filter_congr (fun x _ => hpass crit x), hl]
    simp
  refine ⟨h1, ?_, by decide⟩
  intro cs crit hl
  rw [listCreaturesByCriteria_eq, hl]
  simp [List.length_take]

/-- Witness for claim C10: with an explicit limit of 0 the one-profile
query still returns at most 500 (here exactly one) result. -/
theorem claimC10_limitZero_witness :
    (listCreaturesByCriteria [profA] { limit := some 0 }).length ≤ 500 :=
  claimC10_limitZero.2.1 [profA] { limit := some 0 } rfl
